import Mathlib

/-!
Verification of the G-Shock database viewer (`main.py`) and its companion
scraper (`shockbase_scraper.py`).

The viewer is embedded as pure functions over an explicit application state:
the pandas DataFrame becomes a list of `WatchRecord`, the Tk listboxes and
canvas become fields of `AppState`, the image cache becomes an association
list, and the external HTTP byte source becomes an oracle
`net : String → Option Img` (`none` models a network or decode failure,
which in the source raises out of `fetch_image`).  Machine arithmetic from
the sizing code (Python true division and `int(...)` truncation on
nonnegative values) is modelled exactly over `ℚ` with `Int.floor`.
-/

/-- a watch record: one row of the loaded CSV after the `Year` column has
been coerced to an integer (blank → 0). -/
structure WatchRecord where
  series : String
  subseries : String
  model : String
  year : Int
  imageRef : String
deriving DecidableEq

/-- a decoded bitmap as produced by `Image.open`: only its pixel dimensions
matter to the embedded code. -/
structure Img where
  w : Int
  h : Int
deriving DecidableEq

/-- a Tk-compatible image as produced by resize + `ImageTk.PhotoImage`:
identified by its final dimensions. -/
structure TkImage where
  w : Int
  h : Int
deriving DecidableEq

/-- the `image_cache` dictionary, keyed by image URL. -/
abbrev ImageCache := List (String × TkImage)

/-- the UI-visible state of the viewer: the stored global series selection,
the contents and selections of the three listboxes, the canvas image and the
two status labels. -/
structure AppState where
  selectedSeries : Option String
  subseriesOptions : List String
  selectedSubseries : Option String
  modelOptions : List String
  selectedModel : Option String
  canvasImage : Option TkImage
  statusLeft : String
  statusRight : String
deriving DecidableEq

/-- the state of the window at startup, before any selection. -/
def initState : AppState :=
  ⟨none, [], none, [], none, none, "Select a series...", ""⟩

/-- pandas `Series.unique` on a list of strings: keep each value at its
first occurrence, tracking the already-seen values in an accumulator (the
hash-table of the pandas implementation). -/
def uniqueAux : List String → List String → List String
  | _, [] => []
  | seen, x :: xs =>
    if x ∈ seen then uniqueAux seen xs else x :: uniqueAux (x :: seen) xs

/-- pandas `.unique()`: distinct values in order of appearance. -/
def pandasUnique (l : List String) : List String := uniqueAux [] l

/-- Modelled from the spec: the phrase "distinct values in first-occurrence
order" — keep the head, drop its later duplicates, recurse.  Used only as a
comparison definition for the uniqueness claims. -/
def firstOccurrences : List String → List String
  | [] => []
  | x :: xs => x :: firstOccurrences (xs.filter (fun a => decide (a ≠ x)))
termination_by l => l.length
decreasing_by
  simp only [List.length_cons]
  exact Nat.lt_succ_of_le (List.length_filter_le _ _)

/-- the subseries query of `update_subseries` (line 42):
`df[df["Series"] == selected_series]["Subseries"].unique()`. -/
def listSubseries (cat : List WatchRecord) (s : String) : List String :=
  pandasUnique ((cat.filter (fun r => r.series == s)).map (fun r => r.subseries))

/-- the model query of `update_models` (lines 77-80):
`df[(df["Series"] == s) & (df["Subseries"] == sub)]["Watch Model"].unique()`. -/
def listModels (cat : List WatchRecord) (s sub : String) : List String :=
  pandasUnique
    ((cat.filter (fun r => r.series == s && r.subseries == sub)).map (fun r => r.model))

/-- the per-model lookup of `display_image` (lines 148-151):
`df[df["Watch Model"] == m]["Image URL"].values[0]` and likewise for
`"Year"` — the first row of the filtered frame.  `none` corresponds to the
`IndexError` the source would raise on a model absent from the catalog. -/
def resolve_model (cat : List WatchRecord) (m : String) : Option (String × Int) :=
  match cat.filter (fun r => r.model == m) with
  | [] => none
  | r :: _ => some (r.imageRef, r.year)

/-- the sizing computation of `fetch_image` (lines 111-120) over exact
rational arithmetic: `img_ratio = w / h`; if `w / max_w > h / max_h` then
`(max_w, int(max_w / img_ratio))` else `(int(max_h * img_ratio), max_h)`.
Python `int(...)` truncates toward zero, which on the nonnegative values
arising here is `Int.floor`. -/
def fetchSize (imgW imgH maxW maxH : Int) : Int × Int :=
  let imgAspect : ℚ := (imgW : ℚ) / (imgH : ℚ)
  if (imgW : ℚ) / (maxW : ℚ) > (imgH : ℚ) / (maxH : ℚ) then
    (maxW, ⌊(maxW : ℚ) / imgAspect⌋)
  else
    (⌊(maxH : ℚ) * imgAspect⌋, maxH)

/-- dictionary lookup `image_cache[image_url]` guarded by
`image_url in image_cache`. -/
def cacheGet (cache : ImageCache) (url : String) : Option TkImage :=
  (cache.find? (fun e => e.1 == url)).map (fun e => e.2)

/-- `fetch_image` (lines 94-132): on a cache hit return the stored image; on
a miss consult the byte source, size the decoded bitmap against the canvas
minus the padding margin, store and return it.  The third component counts
external fetches performed by the call (0 on a hit, 1 otherwise); a `none`
first component models the exception that propagates when the download or
decode fails. -/
def fetch_image (net : String → Option Img) (url : String) (cache : ImageCache)
    (canvasW canvasH padding : Int) : Option TkImage × ImageCache × Nat :=
  match cacheGet cache url with
  | some tk => (some tk, cache, 0)
  | none =>
    match net url with
    | none => (none, cache, 1)
    | some img =>
      let maxW := canvasW - 2 * padding
      let maxH := canvasH - 2 * padding
      let sz := fetchSize img.w img.h maxW maxH
      let tk : TkImage := ⟨sz.1, sz.2⟩
      (some tk, (url, tk) :: cache, 1)

/-- the body of `show_image` (lines 153-160), the completion of the
background fetch: call `fetch_image`, then clear the canvas and draw the
result.  When `fetch_image` raises, the canvas statements never run, so the
state is returned unchanged. -/
def completeDisplay (net : String → Option Img) (url : String)
    (canvasW canvasH padding : Int) (cache : ImageCache) (st : AppState) :
    AppState × ImageCache :=
  match fetch_image net url cache canvasW canvasH padding with
  | (some tk, cache2, _) => ({ st with canvasImage := some tk }, cache2)
  | (none, cache2, _) => (st, cache2)

/-- `update_subseries` (lines 23-56): on a series click, store the series in
the global slot, rebuild the subseries listbox from the catalog (deleting
its entries clears any previous subseries selection), empty the models
listbox, wipe the canvas and refresh the status labels.  A `none` event (no
selection) leaves the state untouched. -/
def update_subseries (cat : List WatchRecord) (clicked : Option String)
    (st : AppState) : AppState :=
  match clicked with
  | none => st
  | some s =>
    { st with
      selectedSeries := some s
      subseriesOptions := listSubseries cat s
      selectedSubseries := none
      modelOptions := []
      selectedModel := none
      canvasImage := none
      statusLeft := toString (listSubseries cat s).length ++ " subseries."
      statusRight := "" }

/-- `update_models` (lines 59-91): on a subseries click (the click itself
selects the entry), and provided the global series slot holds a truthy
value (Python: not `None` and not the empty string), rebuild the models
listbox from the catalog and refresh the status labels.  Nothing else is
touched: in particular the canvas keeps whatever image it was showing. -/
def update_models (cat : List WatchRecord) (clicked : Option String)
    (st : AppState) : AppState :=
  match clicked with
  | none => st
  | some sub =>
    let st1 := { st with selectedSubseries := some sub }
    match st1.selectedSeries with
    | none => st1
    | some s =>
      if s != "" then
        { st1 with
          modelOptions := listModels cat s sub
          selectedModel := none
          statusLeft := toString (listModels cat s sub).length ++ " models."
          statusRight := "" }
      else st1

/-- the synchronous part of `display_image` (lines 135-166): on a model
click, look the model up in the catalog, set the right status label to its
year, and return the image URL handed to the background thread (the pending
resolve).  The asynchronous completion is `completeDisplay`. -/
def display_image (cat : List WatchRecord) (clickedModel : Option String)
    (st : AppState) : AppState × Option String :=
  match clickedModel with
  | none => (st, none)
  | some m =>
    let st1 := { st with selectedModel := some m }
    match resolve_model cat m with
    | none => (st1, none)
    | some (url, yr) => ({ st1 with statusRight := toString yr }, some url)

/-! Scraper: `extract_year_and_clean_name` (shockbase_scraper.py 92-108). -/

/-- Python default `str.strip` whitespace, restricted to the ASCII range
occurring in scraped names. -/
def isPySpace (c : Char) : Bool :=
  c == ' ' || c == '\t' || c == '\n' || c == '\r' || c == '\x0b' || c == '\x0c'

/-- Python `str.strip()`: drop leading and trailing whitespace. -/
def pyStrip (l : List Char) : List Char :=
  ((l.dropWhile isPySpace).reverse.dropWhile isPySpace).reverse

/-- one attempted match of the regex `\((\d{4})\)` at the head of the
character list: an opening parenthesis, four digits, a closing parenthesis;
on success the captured group (the four digits). -/
def matchYearAt (l : List Char) : Option (List Char) :=
  match l with
  | o :: a :: b :: c :: d :: e :: _ =>
    if o == '(' && a.isDigit && b.isDigit && c.isDigit && d.isDigit && e == ')' then
      some [a, b, c, d]
    else none
  | _ => none

/-- `re.search(r"\((\d{4})\)", s)`: the leftmost match, returned as its
start index together with the captured year digits. -/
def searchYear : List Char → Option (Nat × List Char)
  | [] => none
  | c :: rest =>
    match matchYearAt (c :: rest) with
    | some y => some (0, y)
    | none =>
      match searchYear rest with
      | some (i, y) => some (i + 1, y)
      | none => none

/-- `extract_year_and_clean_name` (lines 92-108): if the pattern matches,
the year is the captured group and the cleaned name is the stripped text
before `match.start()`; otherwise the year is empty and the name is merely
stripped. -/
def extract_year_and_clean_name (watchName : String) : String × String :=
  match searchYear watchName.data with
  | some (i, y) => (String.mk (pyStrip (watchName.data.take i)), String.mk y)
  | none => (String.mk (pyStrip watchName.data), "")

/-- the end-to-end catalog of the specification: three records spanning two
series. -/
def cat0 : List WatchRecord :=
  [⟨"A", "X", "M1", 2001, "u1"⟩, ⟨"A", "Y", "M2", 0, "u2"⟩, ⟨"B", "X", "M3", 1999, "u3"⟩]

/-- a byte source that serves an 800×400 bitmap for the URL "u1" and fails
on everything else. -/
def net0 : String → Option Img := fun url => if url == "u1" then some ⟨800, 400⟩ else none

/-- a byte source on which every download fails. -/
def netFailAll : String → Option Img := fun _ => none

/-- a state in which series "A" is selected and an image of a previously
chosen model is displayed on the canvas. -/
def stShowingOld : AppState :=
  { initState with selectedSeries := some "A", canvasImage := some ⟨200, 100⟩ }

/-- the state reached by selecting series "A", subseries "X" and model "M1"
(which leaves a resolve of "u1" pending) and then selecting series "B". -/
def stAfterB : AppState :=
  update_subseries cat0 (some "B")
    (display_image cat0 (some "M1")
      (update_models cat0 (some "X") (update_subseries cat0 (some "A") initState))).1

/-- a catalog in which two records of different series share the model name
"M1". -/
def catDup : List WatchRecord :=
  [⟨"A", "X", "M1", 2001, "u1"⟩, ⟨"B", "Y", "M1", 1999, "u9"⟩]

theorem mem_uniqueAux {a : String} : ∀ {l seen : List String},
    a ∈ uniqueAux seen l ↔ a ∈ l ∧ a ∉ seen
  | [], seen => by simp [uniqueAux]
  | x :: xs, seen => by
    by_cases hx : x ∈ seen
    · rw [uniqueAux, if_pos hx]
      rw [mem_uniqueAux]
      constructor
      · rintro ⟨h1, h2⟩
        exact ⟨List.mem_cons_of_mem _ h1, h2⟩
      · rintro ⟨h1, h2⟩
        rcases List.mem_cons.mp h1 with rfl | h1
        · exact absurd hx h2
        · exact ⟨h1, h2⟩
    · rw [uniqueAux, if_neg hx]
      rw [List.mem_cons, mem_uniqueAux]
      constructor
      · rintro (rfl | ⟨h1, h2⟩)
        · exact ⟨List.mem_cons_self _ _, hx⟩
        · refine ⟨List.mem_cons_of_mem _ h1, fun hs => h2 (List.mem_cons_of_mem _ hs)⟩
      · rintro ⟨h1, h2⟩
        by_cases hax : a = x
        · exact Or.inl hax
        · rcases List.mem_cons.mp h1 with rfl | h1
          · exact absurd rfl hax
          · exact Or.inr ⟨h1, by simp [hax, h2]⟩

theorem nodup_uniqueAux : ∀ (l seen : List String), (uniqueAux seen l).Nodup
  | [], seen => by simp [uniqueAux]
  | x :: xs, seen => by
    by_cases hx : x ∈ seen
    · rw [uniqueAux, if_pos hx]
      exact nodup_uniqueAux xs seen
    · rw [uniqueAux, if_neg hx]
      refine List.nodup_cons.mpr ⟨fun hmem => ?_, nodup_uniqueAux xs (x :: seen)⟩
      exact (mem_uniqueAux.mp hmem).2 (List.mem_cons_self _ _)

theorem firstOccurrences_cons (x : String) (xs : List String) :
    firstOccurrences (x :: xs) = x :: firstOccurrences (xs.filter (fun a => decide (a ≠ x))) := by
  conv_lhs => rw [firstOccurrences.eq_def]

theorem uniqueAux_eq_firstOcc : ∀ (l seen : List String),
    uniqueAux seen l = firstOccurrences (l.filter (fun a => decide (a ∉ seen)))
  | [], seen => by simp [uniqueAux, firstOccurrences]
  | x :: xs, seen => by
    by_cases hx : x ∈ seen
    · rw [uniqueAux, if_pos hx, uniqueAux_eq_firstOcc xs seen]
      congr 1
      rw [List.filter_cons]
      simp [hx]
    · rw [uniqueAux, if_neg hx, uniqueAux_eq_firstOcc xs (x :: seen)]
      rw [List.filter_cons]
      have hxd : decide (x ∉ seen) = true := by simp [hx]
      rw [hxd, if_pos rfl, firstOccurrences_cons]
      congr 1
      rw [List.filter_filter]
      congr 1
      apply List.filter_congr
      intro a _
      simp [List.mem_cons, not_or, and_comm]

theorem pandasUnique_eq_firstOcc (l : List String) :
    pandasUnique l = firstOccurrences l := by
  rw [pandasUnique, uniqueAux_eq_firstOcc]
  congr 1
  simp

theorem mem_pandasUnique {a : String} {l : List String} :
    a ∈ pandasUnique l ↔ a ∈ l := by
  rw [pandasUnique, mem_uniqueAux]
  simp

/-- C5: the model query computed in `update_models` returns exactly the
distinct model names of the records matching both the selected series and
the chosen subseries, in first-occurrence order and without duplicates, and
is empty (raising no error) whenever nothing matches. -/
theorem listModels_correct (cat : List WatchRecord) (s sub : String) :
    (listModels cat s sub).Nodup
    ∧ (∀ m, m ∈ listModels cat s sub ↔
        ∃ r ∈ cat, r.series = s ∧ r.subseries = sub ∧ r.model = m)
    ∧ listModels cat s sub =
        firstOccurrences
          ((cat.filter (fun r => r.series == s && r.subseries == sub)).map
            (fun r => r.model))
    ∧ ((∀ r ∈ cat, ¬(r.series = s ∧ r.subseries = sub)) → listModels cat s sub = []) := by
  refine ⟨nodup_uniqueAux _ _, ?_, pandasUnique_eq_firstOcc _, ?_⟩
  · intro m
    simp only [listModels, mem_pandasUnique, List.mem_map, List.mem_filter,
      Bool.and_eq_true, beq_iff_eq]
    constructor
    · rintro ⟨r, ⟨hr, hs, hsub⟩, rfl⟩
      exact ⟨r, hr, hs, hsub, rfl⟩
    · rintro ⟨r, hr, hs, hsub, rfl⟩
      exact ⟨r, ⟨hr, hs, hsub⟩, rfl⟩
  · intro h
    rw [listModels]
    have hnil : cat.filter (fun r => r.series == s && r.subseries == sub) = [] := by
      rw [List.filter_eq_nil_iff]
      intro r hr
      simpa using h r hr
    rw [hnil]
    rfl

theorem listModels_correct_witness :
    (listModels cat0 "A" "X").Nodup ∧ listModels cat0 "Z" "Q" = [] :=
  ⟨(listModels_correct cat0 "A" "X").1,
   (listModels_correct cat0 "Z" "Q").2.2.2 (by decide)⟩

/-- C6: choosing a series runs as one synchronous handler that stores the
new series and, in the same step, clears the subseries selection, the model
options, the model selection and the canvas, and recomputes the subseries
options from the catalog for the new series only — afterwards no finer
state from the previous series remains. -/
theorem update_subseries_atomic_clear (cat : List WatchRecord) (st : AppState)
    (s2 : String) :
    (update_subseries cat (some s2) st).selectedSeries = some s2
    ∧ (update_subseries cat (some s2) st).selectedSubseries = none
    ∧ (update_subseries cat (some s2) st).modelOptions = []
    ∧ (update_subseries cat (some s2) st).selectedModel = none
    ∧ (update_subseries cat (some s2) st).canvasImage = none
    ∧ ∀ x ∈ (update_subseries cat (some s2) st).subseriesOptions,
        ∃ r ∈ cat, r.series = s2 ∧ r.subseries = x := by
  refine ⟨rfl, rfl, rfl, rfl, rfl, ?_⟩
  intro x hx
  simp only [update_subseries, listSubseries, mem_pandasUnique, List.mem_map,
    List.mem_filter, beq_iff_eq] at hx
  obtain ⟨r, ⟨hr, hs⟩, rfl⟩ := hx
  exact ⟨r, hr, hs, rfl⟩

theorem update_subseries_atomic_clear_witness :
    (update_subseries cat0 (some "B") stShowingOld).canvasImage = none
    ∧ ∃ r ∈ cat0, r.series = "B" ∧ r.subseries = "X" :=
  ⟨(update_subseries_atomic_clear cat0 stShowingOld "B").2.2.2.2.1,
   (update_subseries_atomic_clear cat0 stShowingOld "B").2.2.2.2.2 "X" (by decide)⟩

/-- C7: the lookup performed by `display_image` resolves a model name to the
image URL and year of the first record in load order whose model name
equals the argument; records are matched on the model name alone, so when
several records share the name the earliest-loaded one wins. -/
theorem resolve_model_first_match (pre rest : List WatchRecord)
    (r0 : WatchRecord) (m : String) (hpre : ∀ r ∈ pre, r.model ≠ m)
    (h0 : r0.model = m) :
    resolve_model (pre ++ r0 :: rest) m = some (r0.imageRef, r0.year) := by
  have h1 : (pre ++ r0 :: rest).filter (fun r => r.model == m)
      = r0 :: rest.filter (fun r => r.model == m) := by
    rw [List.filter_append]
    have h2 : pre.filter (fun r => r.model == m) = [] := by
      rw [List.filter_eq_nil_iff]
      intro r hr
      simp [hpre r hr]
    rw [h2, List.nil_append, List.filter_cons]
    simp [h0]
  simp only [resolve_model, h1]

theorem resolve_model_first_match_witness :
    resolve_model catDup "M1" = some ("u1", 2001) :=
  resolve_model_first_match [] [⟨"B", "Y", "M1", 1999, "u9"⟩]
    ⟨"A", "X", "M1", 2001, "u1"⟩ "M1" (by simp) rfl

/-- C4: the sizing in `fetch_image` follows the aspect-fit rule: writing
rw = image.width / box.width and rh = image.height / box.height over exact
rationals, a strict rw > rh gives a box-limited width with height
image.height * box.width / image.width (truncated by Python int), and
otherwise — including an exact tie — a box-limited height with width
image.width * box.height / image.height; in particular an 800×400 image in
a 200×200 box yields 200×100 and a 400×800 image yields 100×200. -/
theorem fetchSize_aspect_fit (imgW imgH boxW boxH : Int) (_h1 : 0 < imgW)
    (_h2 : 0 < imgH) (_h3 : 0 < boxW) (_h4 : 0 < boxH) :
    ((imgW : ℚ) / (boxW : ℚ) > (imgH : ℚ) / (boxH : ℚ) →
      fetchSize imgW imgH boxW boxH = (boxW, ⌊(imgH : ℚ) * (boxW : ℚ) / (imgW : ℚ)⌋))
    ∧ (¬((imgW : ℚ) / (boxW : ℚ) > (imgH : ℚ) / (boxH : ℚ)) →
      fetchSize imgW imgH boxW boxH = (⌊(imgW : ℚ) * (boxH : ℚ) / (imgH : ℚ)⌋, boxH))
    ∧ fetchSize 800 400 200 200 = (200, 100)
    ∧ fetchSize 400 800 200 200 = (100, 200) := by
  refine ⟨?_, ?_, by rw [fetchSize]; norm_num, by rw [fetchSize]; norm_num⟩
  · intro hgt
    rw [fetchSize]
    simp only [hgt, if_pos]
    have : (boxW : ℚ) / ((imgW : ℚ) / (imgH : ℚ)) = (imgH : ℚ) * (boxW : ℚ) / (imgW : ℚ) := by
      rw [div_div_eq_mul_div, mul_comm]
    rw [this]
  · intro hle
    rw [fetchSize]
    simp only [hle, if_neg, if_false]
    have : (boxH : ℚ) * ((imgW : ℚ) / (imgH : ℚ)) = (imgW : ℚ) * (boxH : ℚ) / (imgH : ℚ) := by
      rw [mul_comm, div_mul_eq_mul_div]
    rw [this]

theorem fetchSize_aspect_fit_witness :
    fetchSize 800 400 200 200 = (200, 100) ∧ fetchSize 400 800 200 200 = (100, 200) :=
  ⟨(fetchSize_aspect_fit 800 400 200 200 (by norm_num) (by norm_num) (by norm_num)
      (by norm_num)).2.2.1,
   (fetchSize_aspect_fit 800 400 200 200 (by norm_num) (by norm_num) (by norm_num)
      (by norm_num)).2.2.2⟩

/-- C3: once `fetch_image` has resolved a URL, any later call with the same
URL — whatever canvas geometry is then in force — is a cache hit: it
performs zero external fetches, leaves the cache unchanged and returns the
very image stored by the first call, whose dimensions were computed from
the geometry of the first call. -/
theorem fetch_image_single_fetch (net : String → Option Img) (url : String)
    (cache : ImageCache) (cW cH pad : Int) (tk : TkImage) (cache2 : ImageCache)
    (n : Nat) (h : fetch_image net url cache cW cH pad = (some tk, cache2, n)) :
    (∀ cW2 cH2 pad2 : Int,
      fetch_image net url cache2 cW2 cH2 pad2 = (some tk, cache2, 0))
    ∧ (cacheGet cache url = none → ∀ img, net url = some img →
        tk = ⟨(fetchSize img.w img.h (cW - 2 * pad) (cH - 2 * pad)).1,
              (fetchSize img.w img.h (cW - 2 * pad) (cH - 2 * pad)).2⟩) := by
  rcases hcg : cacheGet cache url with _ | tk0
  · rcases hnet : net url with _ | img
    · simp [fetch_image, hcg, hnet] at h
    · simp only [fetch_image, hcg, hnet, Prod.mk.injEq, Option.some.injEq] at h
      obtain ⟨htk, hc2, -⟩ := h
      refine ⟨?_, ?_⟩
      · intro cW2 cH2 pad2
        have hhit : cacheGet cache2 url = some tk := by
          rw [← hc2, cacheGet]
          simp [htk]
        simp [fetch_image, hhit]
      · intro _ img2 hnet2
        injection hnet2 with himg
        rw [← himg]
        exact htk.symm
  · simp only [fetch_image, hcg, Prod.mk.injEq, Option.some.injEq] at h
    obtain ⟨htk, hc2, -⟩ := h
    subst hc2
    subst htk
    refine ⟨?_, ?_⟩
    · intro cW2 cH2 pad2
      simp [fetch_image, hcg]
    · intro hnone
      cases hnone

theorem fetch_image_single_fetch_witness :
    fetch_image net0 "u1" [("u1", ⟨200, 100⟩)] 999 999 0 =
      (some ⟨200, 100⟩, [("u1", ⟨200, 100⟩)], 0) :=
  (fetch_image_single_fetch net0 "u1" [] 220 220 10 ⟨200, 100⟩
    [("u1", ⟨200, 100⟩)] 1 (by
      have h : fetchSize 800 400 200 200 = (200, 100) := by rw [fetchSize]; norm_num
      simp [fetch_image, cacheGet, net0]
      norm_num [h])).1 999 999 0

/-- C1 counterexample: with series "A" selected and a 200×100 image of a
previously chosen model on the canvas, handling a subseries click via
`update_models` recomputes the model options yet leaves that image on the
canvas — `update_models` never touches `image_canvas`, so an image from a
previously chosen model does remain displayed after the handler returns. -/
theorem update_models_keeps_image_cex :
    (update_models cat0 (some "X") stShowingOld).modelOptions = ["M1"]
    ∧ (update_models cat0 (some "X") stShowingOld).canvasImage = some ⟨200, 100⟩ := by
  decide

/-- C1 amended: for every subseries click handled while a truthy series is
stored, `update_models` recomputes the model options from the catalog for
the (selected series, chosen subseries) pair, but does not clear the
displayed image: the canvas keeps exactly the image it was showing. -/
theorem update_models_recomputes (cat : List WatchRecord) (st : AppState)
    (s sub : String) (hs : st.selectedSeries = some s) (hne : s ≠ "") :
    (update_models cat (some sub) st).modelOptions = listModels cat s sub
    ∧ (update_models cat (some sub) st).canvasImage = st.canvasImage
    ∧ (update_models cat (some sub) st).selectedSeries = some s
    ∧ (update_models cat (some sub) st).selectedSubseries = some sub := by
  simp [update_models, hs, hne]

theorem update_models_recomputes_witness :
    (update_models cat0 (some "X") stShowingOld).modelOptions = listModels cat0 "A" "X"
    ∧ (update_models cat0 (some "X") stShowingOld).canvasImage = stShowingOld.canvasImage :=
  ⟨(update_models_recomputes cat0 stShowingOld "A" "X" rfl (by decide)).1,
   (update_models_recomputes cat0 stShowingOld "A" "X" rfl (by decide)).2.1⟩

/-- C2 counterexample: select series "A", subseries "X" and model "M1",
leaving a resolve of "u1" pending; then select series "B", which empties
the finer selections and the canvas.  When the pending resolve completes,
`show_image` draws the fetched 200×100 image with no check that the
originating selection is still current, so the stale image of "M1" is
rendered into the since-changed view. -/
theorem display_stale_render_cex :
    (display_image cat0 (some "M1")
        (update_models cat0 (some "X") (update_subseries cat0 (some "A") initState))).2
      = some "u1"
    ∧ stAfterB.canvasImage = none
    ∧ stAfterB.selectedSeries = some "B"
    ∧ stAfterB.selectedModel = none
    ∧ (completeDisplay net0 "u1" 220 220 10 [] stAfterB).1.canvasImage
        = some ⟨200, 100⟩ := by
  refine ⟨by decide, by decide, by decide, by decide, ?_⟩
  have hfs : fetchSize 800 400 200 200 = (200, 100) := by rw [fetchSize]; norm_num
  have hfetch : fetch_image net0 "u1" [] 220 220 10
      = (some ⟨200, 100⟩, [("u1", ⟨200, 100⟩)], 1) := by
    simp [fetch_image, cacheGet, net0]
    norm_num [hfs]
  simp [completeDisplay, hfetch]

/-- C2 amended: the completion handler performs no currency check: whenever
the fetch succeeds it draws the fetched image and stores it in the cache
regardless of the application state at completion time, so the result is
rendered even into a view whose selection has changed since the fetch was
started. -/
theorem completion_unconditional_render (net : String → Option Img)
    (url : String) (cW cH pad : Int) (cache cache2 : ImageCache) (tk : TkImage)
    (n : Nat) (h : fetch_image net url cache cW cH pad = (some tk, cache2, n)) :
    ∀ st : AppState, completeDisplay net url cW cH pad cache st
      = ({ st with canvasImage := some tk }, cache2) := by
  intro st
  simp [completeDisplay, h]

theorem completion_unconditional_render_witness :
    completeDisplay net0 "u1" 220 220 10 [] stAfterB
      = ({ stAfterB with canvasImage := some ⟨200, 100⟩ }, [("u1", ⟨200, 100⟩)]) :=
  completion_unconditional_render net0 "u1" 220 220 10 [] [("u1", ⟨200, 100⟩)]
    ⟨200, 100⟩ 1 (by
      have hfs : fetchSize 800 400 200 200 = (200, 100) := by rw [fetchSize]; norm_num
      simp [fetch_image, cacheGet, net0]
      norm_num [hfs]) stAfterB

/-- C8 counterexample: with a 200×100 image of a previous selection on the
canvas, a failing resolve of an uncached URL aborts `show_image` before
`image_canvas.delete("all")` runs, so the display area continues to show
the stale image instead of being left in an empty or error state. -/
theorem fetch_failure_stale_cex :
    (completeDisplay netFailAll "u9" 220 220 10 [] stShowingOld).1.canvasImage
      = some ⟨200, 100⟩
    ∧ ¬((completeDisplay netFailAll "u9" 220 220 10 [] stShowingOld).1.canvasImage
      = none) := by
  decide

/-- C8 amended: a network or decode failure on an uncached URL is confined
to that resolver call: exactly one fetch is attempted (no retry), the cache
is not modified, and the completion returns with the application state —
including whatever image the canvas was showing — unchanged; the display
area is not cleared to an empty or error state. -/
theorem fetch_failure_isolated (net : String → Option Img) (url : String)
    (cache : ImageCache) (cW cH pad : Int) (st : AppState)
    (hmiss : cacheGet cache url = none) (hfail : net url = none) :
    fetch_image net url cache cW cH pad = (none, cache, 1)
    ∧ completeDisplay net url cW cH pad cache st = (st, cache) := by
  have h : fetch_image net url cache cW cH pad = (none, cache, 1) := by
    simp [fetch_image, hmiss, hfail]
  exact ⟨h, by simp [completeDisplay, h]⟩

theorem fetch_failure_isolated_witness :
    fetch_image netFailAll "u9" [] 220 220 10 = (none, [], 1)
    ∧ completeDisplay netFailAll "u9" 220 220 10 [] stShowingOld = (stShowingOld, []) :=
  fetch_failure_isolated netFailAll "u9" [] 220 220 10 stShowingOld rfl rfl

/-- C9: the crawler name parser maps "GA-100 (2012)" to the cleaned name
"GA-100" with year "2012", and maps "DW-5600", which has no parenthesized
4-digit year, to its stripped self with the empty year. -/
theorem extract_year_examples :
    extract_year_and_clean_name "GA-100 (2012)" = ("GA-100", "2012")
    ∧ extract_year_and_clean_name "DW-5600" = ("DW-5600", "") := by
  decide

theorem matchYearAt_cons6 (x0 x1 x2 x3 x4 x5 : Char) (t : List Char) :
    matchYearAt (x0 :: x1 :: x2 :: x3 :: x4 :: x5 :: t) =
      if x0 == '(' && x1.isDigit && x2.isDigit && x3.isDigit && x4.isDigit && x5 == ')' then
        some [x1, x2, x3, x4]
      else none := rfl

theorem matchYearAt_append_none (c : Char) (pre suf : List Char)
    (d1 d2 d3 d4 : Char) (hm : matchYearAt (c :: pre) = none) :
    matchYearAt (c :: (pre ++ '(' :: d1 :: d2 :: d3 :: d4 :: ')' :: suf)) = none := by
  have hopen : ('(' : Char).isDigit = false := rfl
  have hneq : (('(' : Char) == ')') = false := rfl
  match pre with
  | [] => simp [matchYearAt_cons6, hopen]
  | [a] => simp [matchYearAt_cons6, hopen]
  | [a, b] => simp [matchYearAt_cons6, hopen]
  | [a, b, e] => simp [matchYearAt_cons6, hopen]
  | [a, b, e, f] => simp [matchYearAt_cons6, hneq]
  | a :: b :: e :: f :: g :: rest =>
    simp only [List.cons_append, matchYearAt_cons6] at hm ⊢
    exact hm

theorem searchYear_append (pre suf : List Char) (d1 d2 d3 d4 : Char)
    (h1 : d1.isDigit = true) (h2 : d2.isDigit = true) (h3 : d3.isDigit = true)
    (h4 : d4.isDigit = true) (hpre : searchYear pre = none) :
    searchYear (pre ++ '(' :: d1 :: d2 :: d3 :: d4 :: ')' :: suf) =
      some (pre.length, [d1, d2, d3, d4]) := by
  induction pre with
  | nil =>
    simp [searchYear, matchYearAt_cons6, h1, h2, h3, h4]
  | cons c pre ih =>
    rw [searchYear] at hpre
    rcases hm : matchYearAt (c :: pre) with _ | y
    · rw [hm] at hpre
      rcases hs : searchYear pre with _ | p
      · rw [List.cons_append, searchYear,
          matchYearAt_append_none c pre suf d1 d2 d3 d4 hm]
        rw [ih hs]
        simp
      · rw [hs] at hpre
        simp at hpre
    · rw [hm] at hpre
      simp at hpre

/-- C10: on every watch name that decomposes as text with no parenthesized
4-digit year, followed by a parenthesized 4-digit year, followed by
arbitrary further text, `extract_year_and_clean_name` takes the year from
that first occurrence and returns as the cleaned name only the stripped
text strictly before it — everything from the year onward is discarded. -/
theorem extract_first_paren_year (pre suf : List Char) (d1 d2 d3 d4 : Char)
    (h1 : d1.isDigit = true) (h2 : d2.isDigit = true) (h3 : d3.isDigit = true)
    (h4 : d4.isDigit = true) (hpre : searchYear pre = none) :
    extract_year_and_clean_name
        (String.mk (pre ++ '(' :: d1 :: d2 :: d3 :: d4 :: ')' :: suf)) =
      (String.mk (pyStrip pre), String.mk [d1, d2, d3, d4]) := by
  rw [extract_year_and_clean_name]
  have hdata : (String.mk (pre ++ '(' :: d1 :: d2 :: d3 :: d4 :: ')' :: suf)).data
      = pre ++ '(' :: d1 :: d2 :: d3 :: d4 :: ')' :: suf := rfl
  rw [hdata, searchYear_append pre suf d1 d2 d3 d4 h1 h2 h3 h4 hpre]
  simp [List.take_left]

theorem extract_first_paren_year_witness :
    extract_year_and_clean_name
        (String.mk ("GA-100 ".data ++ '(' :: '2' :: '0' :: '1' :: '2' :: ')' :: " Limited".data))
      = ("GA-100", "2012") := by
  rw [extract_first_paren_year "GA-100 ".data " Limited".data '2' '0' '1' '2'
    (by decide) (by decide) (by decide) (by decide) (by decide)]
  decide
